import Mathlib

/-!
ipftrace2: trace database and script engine.

A shallow embedding of `src/tracedb.c` and `src/script.c`.

Conventions of the embedding

* C objects reached through pointers are values; a function that mutates one
  returns the new value.  A pointer that may be `NULL` is an `Option`.
* Results of calls into the allocator are inputs of the model (`malloc` may
  fail at any call), so every theorem quantifies over them.
* `khash.h`, `klist.h`, `ipftrace.h` and the Lua C API lie outside the two
  files embedded here; what the code uses of them is modelled and marked.
-/

namespace Ipftrace

/-- One octet (`uint8_t`). -/
abbrev Byte := Fin 256

/-! ## Trace database (`tracedb.c`) -/

/-- Modelled from the spec: `struct ipft_trace`, declared in `ipftrace.h`.
The fields are the ones `tracedb.c` reads: the flow key `skb_addr`, the
function address `faddr`, the timestamp, the CPU index and the fixed-size raw
payload `data` (`sizeof(t->data)` is `data.length`).  The integer fields are
only stored, compared and printed, never computed with. -/
structure ipft_trace where
  skb_addr : Nat
  tstamp : Nat
  faddr : Nat
  processor_id : Nat
  data : List Byte
deriving DecidableEq, Repr

/-- Modelled from the spec: `klist_t(trace_list)` of `klist.h`, an
append-ordered sequence.  `kl_begin .. kl_end` walks it front to back. -/
abbrev klist_trace_list := List ipft_trace

/-- Modelled from the spec: `kl_init(trace_list)`, which yields an empty list
or `NULL` when its allocation fails (`ok = false`). -/
def kl_init (ok : Bool) : Option klist_trace_list :=
  if ok then some [] else none

/-- Modelled from the spec: `*kl_pushp(trace_list, l) = t`, which appends `t`
at the tail of `l`. -/
def kl_pushp (l : klist_trace_list) (t : ipft_trace) : klist_trace_list :=
  l ++ [t]

/-- An occupied bucket of the hash table: its key and its value slot.  The
slot is `none` while it holds whatever the memory held when the key was put
(`kh_put` does not write the value). -/
structure kh_entry where
  key : Nat
  val : Option klist_trace_list
deriving DecidableEq, Repr

/-- Modelled from the spec: `khash_t(trace)` of `khash.h`, the associative
store from flow key to per-key sequence.  Only the occupied buckets are kept,
in bucket order, which is the order `kh_foreach_value` walks them.  The
32-bit width of khash counters is outside the model. -/
structure kh_trace_t where
  entries : List kh_entry
deriving DecidableEq, Repr

/-- The index's choice of bucket order after an insertion (hash value,
probing, rehash on growth).  The order is unspecified, so it is an input of
the model; it can only rearrange the occupied buckets. -/
structure kh_layout where
  fn : List kh_entry → List kh_entry
  perm : ∀ l, (fn l).Perm l

/-- What the environment decides during one `tracedb_put_trace` call. -/
structure put_env where
  /-- whether `kh_put` gets the memory it asks for -/
  kh_alloc : Bool
  /-- the bucket order `kh_put` leaves behind -/
  layout : kh_layout
  /-- whether `kl_init` gets the memory it asks for -/
  kl_alloc : Bool

/-- Modelled from the spec: `kh_init(trace)`, an empty table or `NULL`. -/
def kh_init (ok : Bool) : Option kh_trace_t :=
  if ok then some { entries := [] } else none

/-- Modelled from the spec: `kh_size(h)`, the number of keys in the table. -/
def kh_size (h : kh_trace_t) : Nat :=
  h.entries.length

/-- Position of the bucket holding `key`, or the number of buckets
(`kh_end`) when no bucket holds it. -/
def kh_index : List kh_entry → Nat → Nat
  | [], _ => 0
  | e :: es, key => if e.key = key then 0 else kh_index es key + 1

/-- Whether some bucket holds `key`. -/
def kh_present (es : List kh_entry) (key : Nat) : Bool :=
  es.any (fun e => decide (e.key = key))

/-- Modelled from the spec: `kh_put(trace, h, key, &ret)`.  Yields the table,
the iterator of the key's bucket and `ret`: `-1` when memory ran out, `0`
when the key was already present, `1` when it was added (its value slot is
then not yet written).  No key is ever deleted by this program, so the
"deleted bucket reused" answer `2` does not arise. -/
def kh_put (kh_alloc : Bool) (layout : kh_layout) (h : kh_trace_t) (key : Nat) :
    kh_trace_t × Nat × Int :=
  if !kh_alloc then (h, h.entries.length, -1)
  else if kh_present h.entries key then
    let es := layout.fn h.entries
    ({ entries := es }, kh_index es key, 0)
  else
    let es := layout.fn (h.entries ++ [{ key := key, val := none }])
    ({ entries := es }, kh_index es key, 1)

/-- Value slot of the bucket at position `iter` (`kh_value(h, iter)` read);
`none` when the slot was never written. -/
def kh_value : List kh_entry → Nat → Option klist_trace_list
  | [], _ => none
  | e :: _, 0 => e.val
  | _ :: es, i + 1 => kh_value es i

/-- Assignment to the value slot at position `iter`
(`kh_value(h, iter) = l`). -/
def kh_set_value : List kh_entry → Nat → klist_trace_list → List kh_entry
  | [], _, _ => []
  | e :: es, 0, l => { key := e.key, val := some l } :: es
  | e :: es, i + 1, l => e :: kh_set_value es i l

/-- The database: `struct ipft_tracedb`, whose only member is the pointer to
the hash table. -/
structure ipft_tracedb where
  trace : Option kh_trace_t
deriving DecidableEq, Repr

/-- How a call of `tracedb_put_trace` ends. -/
inductive put_outcome where
  /-- the call returned `ret`, leaving the database as given -/
  | returned (ret : Int) (tdb : ipft_tracedb)
  /-- the call ended the process with `exit(status)` -/
  | exited (status : Nat)
  /-- the call dereferenced `NULL` or a value slot that was never written -/
  | undefined
deriving DecidableEq, Repr

/-- `EXIT_FAILURE` of `stdlib.h`. -/
def EXIT_FAILURE : Nat := 1

/-- `tracedb_get_total` (tracedb.c:29-33); `none` when `tdb->trace` is
`NULL`. -/
def tracedb_get_total (tdb : ipft_tracedb) : Option Nat :=
  tdb.trace.map kh_size

/-- `tracedb_put_trace` (tracedb.c:35-60).  When the key is present the
record is pushed on the list the value slot points to, so the slot's list
grows in place; here the grown list is written back. -/
def tracedb_put_trace (env : put_env) (tdb : ipft_tracedb) (t : ipft_trace) :
    put_outcome :=
  match tdb.trace with
  | none => .undefined
  | some h =>
    match kh_put env.kh_alloc env.layout h t.skb_addr with
    | (h1, iter, ret) =>
      if ret = -1 then
        .exited EXIT_FAILURE
      else if ret = 0 then
        match kh_value h1.entries iter with
        | none => .undefined
        | some l =>
          .returned 0 { trace := some { entries := kh_set_value h1.entries iter (kl_pushp l t) } }
      else
        match kl_init env.kl_alloc with
        | none => .returned (-1) { trace := some h1 }
        | some l =>
          .returned 0 { trace := some { entries := kh_set_value h1.entries iter (kl_pushp l t) } }

/-- A run of `tracedb_put_trace` calls in which every call returns `0`:
the database after the last call, or `none` as soon as one call does not
return `0`. -/
def tracedb_put_traces : ipft_tracedb → List (put_env × ipft_trace) → Option ipft_tracedb
  | tdb, [] => some tdb
  | tdb, (env, t) :: rest =>
    match tracedb_put_trace env tdb t with
    | .returned 0 tdb1 => tracedb_put_traces tdb1 rest
    | _ => none

/-- `tracedb_create` (tracedb.c:103-127).  `malloc_ok` says whether
`malloc(sizeof(*tdb))` succeeds, `kh_ok` whether `kh_init` does; `tdbp` is
what `*tdbp` held before the call.  Yields the return value and `*tdbp`. -/
def tracedb_create (malloc_ok kh_ok : Bool) (tdbp : Option ipft_tracedb) :
    Int × Option ipft_tracedb :=
  let tdb : Option ipft_tracedb := if malloc_ok then some { trace := none } else none
  match tdb with
  | none => (-1, tdbp)
  | some _ =>
    let tdb : Option ipft_tracedb := some { trace := kh_init kh_ok }
    if tdb.isNone then (-1, tdbp)
    else (0, tdb)

/-- What `tracedb_dump` does that can be seen from outside, in order: the
`printf` and `fprintf` calls with their arguments, and the calls of the
formatter `cb`. -/
inductive dump_event where
  /-- `printf("===\n")`, the flow separator -/
  | flow_sep
  /-- `cb(t->data, sizeof(t->data), arg)` -/
  | cb_call (data : List Byte) (len : Nat)
  /-- `printf("%zu %04u %32.32s\n", tstamp, processor_id, name)` -/
  | line (tstamp processor_id : Nat) (name : String)
  /-- `printf("%zu %04u %32.32s %s\n", tstamp, processor_id, name, dump)` -/
  | line_dump (tstamp processor_id : Nat) (name : String) (dump : String)
  /-- `fprintf(stderr, "Failed to resolve the symbol from address\n")` -/
  | resolve_failed
deriving DecidableEq, Repr

/-- State of a dump under way: the events so far and the state behind the
formatter's `arg` pointer. -/
structure dump_state (σ : Type) where
  out : List dump_event
  arg : σ

/-- How `tracedb_dump` ends. -/
inductive dump_status where
  /-- every record of every flow key was visited -/
  | completed
  /-- the `return` after a failed symbol lookup was taken -/
  | aborted
  /-- a `NULL` table or a value slot that was never written was walked -/
  | undefined
deriving DecidableEq, Repr

/-- The symbol table as `tracedb_dump` uses it: `symsdb_get_addr2sym(sdb,
addr, &name)` yields the name, or fails (`-1`, here `none`). -/
abbrev symsdb := Nat → Option String

/-- The formatter: `cb(data, len, arg)` yields a rendered string or `NULL`
and may change the state behind `arg`.  `none` is a `NULL` callback. -/
abbrev dump_cb (σ : Type) := Option (List Byte → Nat → σ → Option String × σ)

/-- Appends one event. -/
def dump_state.emit {σ : Type} (s : dump_state σ) (e : dump_event) : dump_state σ :=
  { out := s.out ++ [e], arg := s.arg }

/-- Body of the inner loop of `tracedb_dump` (tracedb.c:79-99) for one
record.  `free(dump)` leaves no trace here. -/
def dump_trace {σ : Type} (sdb : symsdb) (cb : dump_cb σ) (s : dump_state σ)
    (t : ipft_trace) : dump_state σ × dump_status :=
  match sdb t.faddr with
  | none => (s.emit .resolve_failed, .aborted)
  | some name =>
    match cb with
    | some f =>
      match f t.data t.data.length s.arg with
      | (none, a) =>
        ({ out := s.out ++ [.cb_call t.data t.data.length,
                            .line t.tstamp t.processor_id name], arg := a }, .completed)
      | (some dump, a) =>
        ({ out := s.out ++ [.cb_call t.data t.data.length,
                            .line_dump t.tstamp t.processor_id name dump], arg := a }, .completed)
    | none => (s.emit (.line t.tstamp t.processor_id name), .completed)

/-- Inner loop of `tracedb_dump` (tracedb.c:78-100): the records of one
list from `kl_begin` to `kl_end`, left as soon as a record aborts. -/
def dump_list {σ : Type} (sdb : symsdb) (cb : dump_cb σ) :
    List ipft_trace → dump_state σ → dump_state σ × dump_status
  | [], s => (s, .completed)
  | t :: l, s =>
    match dump_trace sdb cb s t with
    | (s1, .completed) => dump_list sdb cb l s1
    | r => r

/-- Outer loop of `tracedb_dump` (tracedb.c:73-100, `kh_foreach_value`):
the occupied buckets in bucket order. -/
def dump_buckets {σ : Type} (sdb : symsdb) (cb : dump_cb σ) :
    List kh_entry → dump_state σ → dump_state σ × dump_status
  | [], s => (s, .completed)
  | e :: es, s =>
    match e.val with
    | none => (s.emit .flow_sep, .undefined)
    | some l =>
      match dump_list sdb cb l (s.emit .flow_sep) with
      | (s1, .completed) => dump_buckets sdb cb es s1
      | r => r

/-- `tracedb_dump` (tracedb.c:62-101).  `count` is written and never read,
so it is left out. -/
def tracedb_dump {σ : Type} (tdb : ipft_tracedb) (sdb : symsdb) (cb : dump_cb σ)
    (arg : σ) : dump_state σ × dump_status :=
  match tdb.trace with
  | none => ({ out := [], arg := arg }, .undefined)
  | some h => dump_buckets sdb cb h.entries { out := [], arg := arg }

/-- The keys of the table in bucket order. -/
def kh_keys (h : kh_trace_t) : List Nat :=
  h.entries.map kh_entry.key

/-- The records of `ts` whose flow key is `k`, in the order of `ts`. -/
def with_key (k : Nat) (ts : List ipft_trace) : List ipft_trace :=
  ts.filter (fun t => decide (t.skb_addr = k))

/-! ## Script engine (`script.c`) -/

/-- Modelled from the spec: a value of the scripting runtime as the Lua C API
of `lua.h` shows it.  A number carries the text `lua_tolstring` converts it
to; a function is named by an identifier that the runtime can run; `other`
covers tables, userdata and threads. -/
inductive lua_value where
  | nil
  | boolean (b : Bool)
  | number (text : List Byte)
  | string (bytes : List Byte)
  | function (id : Nat)
  | other (tag : Nat)
deriving DecidableEq, Repr

/-- The global variables of a runtime (they stand for the whole store a
script can reach). -/
abbrev lua_globals := String → lua_value

/-- Modelled from the spec: the debug-info handle (`struct ipft_debuginfo`),
seen through the three queries scripts can reach.  Each takes C strings
(`none` is `NULL`) and fails with `none`.  A C string argument is given as
the bytes behind the pointer up to the terminating zero the runtime keeps
after them; `none` as an answer stands for the return value `-1`, the way
every callee in these files reports failure, and `some v` for a return
value of success with `v` stored through the out pointer. -/
structure ipft_debuginfo where
  offsetof : Option (List Byte) → Option (List Byte) → Option Nat
  sizeof : Option (List Byte) → Option Nat
  typeof : Option (List Byte) → Option (List Byte) → Option (List Byte)

/-- Modelled from the spec: `lua_State`.  `stack` is the value stack of the
running C function with its top first (index `-1` is the head).  `run f args
g` is what calling function `f` with `args` under globals `g` does: its
return values and the globals it leaves, or `none` when it raises an error
or does not return.  `extraspace` is the per-runtime slot behind
`lua_getextraspace`. -/
structure lua_State where
  stack : List lua_value
  globals : lua_globals
  run : Nat → List lua_value → lua_globals → Option (List lua_value × lua_globals)
  extraspace : Option ipft_debuginfo

/-- `lua_gettop`: the depth of the value stack. -/
def lua_gettop (L : lua_State) : Nat :=
  L.stack.length

/-- Position, counted from the top, of the stack slot a Lua index names:
`-1` is the top, `1` the bottom.  `none` for an index outside the stack. -/
def lua_index (L : lua_State) (idx : Int) : Option Nat :=
  if idx < 0 then
    if idx.natAbs ≤ L.stack.length then some (idx.natAbs - 1) else none
  else if 0 < idx ∧ idx.natAbs ≤ L.stack.length then some (L.stack.length - idx.natAbs)
  else none

/-- `lua_getglobal(L, name)`: pushes the value of the global `name`. -/
def lua_getglobal (L : lua_State) (name : String) : lua_State :=
  { L with stack := L.globals name :: L.stack }

/-- `lua_isfunction(L, idx)`. -/
def lua_isfunction (L : lua_State) (idx : Int) : Bool :=
  match (lua_index L idx).bind (fun i => L.stack.get? i) with
  | some (.function _) => true
  | _ => false

/-- `lua_pop(L, n)`. -/
def lua_pop (L : lua_State) (n : Nat) : lua_State :=
  { L with stack := L.stack.drop n }

/-- `lua_pushlstring(L, s, len)`: pushes a copy of the first `len` bytes at
`s`. -/
def lua_pushlstring (L : lua_State) (s : List Byte) (len : Nat) : lua_State :=
  { L with stack := .string (s.take len) :: L.stack }

/-- Adjusts a list of return values to exactly `n` values, as `lua_call`
does: surplus values are dropped, missing ones are `nil`. -/
def lua_adjust (n : Nat) (rets : List lua_value) : List lua_value :=
  rets.take n ++ List.replicate (n - rets.length) .nil

/-- `lua_call(L, nargs, nresults)`: the function and its arguments are
popped, the results pushed with the last one on top.  The call is not
protected, so an error raised by the callee (or a callee that is not a
function) ends in the runtime's panic handler: `none`. -/
def lua_call (L : lua_State) (nargs nresults : Nat) : Option lua_State :=
  match L.stack.drop nargs with
  | .function f :: rest =>
    match L.run f (L.stack.take nargs).reverse L.globals with
    | none => none
    | some (rets, g) =>
      some { L with stack := (lua_adjust nresults rets).reverse ++ rest, globals := g }
  | _ => none

/-- `lua_tolstring(L, idx, &len)`: the bytes of a string, `NULL` for a value
that is neither a string nor a number.  A number is converted in place.
Yields the runtime, the pointer and `len`. -/
def lua_tolstring (L : lua_State) (idx : Int) : lua_State × Option (List Byte) × Nat :=
  match lua_index L idx with
  | none => (L, none, 0)
  | some i =>
    match L.stack.get? i with
    | some (.string s) => (L, some s, s.length)
    | some (.number txt) => ({ L with stack := L.stack.set i (.string txt) }, some txt, txt.length)
    | _ => (L, none, 0)

/-- `struct ipft_script`. -/
structure ipft_script where
  L : lua_State

/-- `script_is_function` (script.c:127-135). -/
def script_is_function (L : lua_State) (name : String) : Bool × lua_State :=
  let L1 := lua_getglobal L name
  let ret := lua_isfunction L1 (-1)
  let L2 := lua_pop L1 1
  (ret, L2)

/-- `script_has_init` (script.c:137-141). -/
def script_has_init (L : lua_State) : Bool × lua_State :=
  script_is_function L "init"

/-- `script_has_dump` (script.c:149-153). -/
def script_has_dump (L : lua_State) : Bool × lua_State :=
  script_is_function L "dump"

/-- `script_has_emit` (script.c:155-159). -/
def script_has_emit (L : lua_State) : Bool × lua_State :=
  script_is_function L "emit"

/-- `script_exec_init` (script.c:161-170); `none` when `init` raises. -/
def script_exec_init (L : lua_State) : Option lua_State :=
  match script_has_init L with
  | (false, L1) => some L1
  | (true, L1) => lua_call (lua_getglobal L1 "init") 0 0

/-- What the environment decides during `script_create`: whether
`malloc(sizeof(*script))` succeeds; the runtime as it stands once
`luaL_newstate`, `luaL_openlibs`, the bundled helper library and the `ipft`
table are in place; and what `luaL_dofile(L, path)` makes of it (error code
and runtime). -/
structure script_env where
  malloc_ok : Bool
  newstate : lua_State
  dofile : lua_State → String → Int × lua_State

/-- `script_create` (script.c:183-258).  `scriptp` is what `*scriptp` held
before the call; yields the return value and `*scriptp`, or `none` when
`init` raises. -/
def script_create (env : script_env) (scriptp : Option ipft_script)
    (dinfo : Option ipft_debuginfo) (path : Option String) :
    Option (Int × Option ipft_script) :=
  match path with
  | none => some (0, none)
  | some p =>
    if !env.malloc_ok then some (-1, scriptp)
    else
      let L : lua_State := { env.newstate with extraspace := dinfo }
      match env.dofile L p with
      | (error, L1) =>
        if error ≠ 0 then some (-1, scriptp)
        else
          match script_exec_init L1 with
          | none => none
          | some L2 => some (0, some { L := L2 })

/-- `sizeof(struct bpf_insn)`: one instruction record of `linux/bpf.h` is
eight bytes (opcode, two 4-bit registers, 16-bit offset, 32-bit
immediate). -/
def sizeof_bpf_insn : Nat := 8

/-- What `script_exec_emit` leaves behind when it returns: its return value,
`*modp` (`none` is `NULL`, otherwise the bytes of the buffer), `*mod_cnt`
and the session. -/
structure emit_result where
  ret : Int
  modp : Option (List Byte)
  mod_cnt : Nat
  script : Option ipft_script

/-- `script_exec_emit` (script.c:271-316).  `malloc n` says whether
`malloc(n)` succeeds; `modp` and `mod_cnt` are what the two outputs held
before the call.  `*mod_cnt` is a `uint32_t`.  `none` when `emit` raises. -/
def script_exec_emit (malloc : Nat → Bool) (script : Option ipft_script)
    (modp : Option (List Byte)) (mod_cnt : Nat) : Option emit_result :=
  match script with
  | none => some { ret := 0, modp := none, mod_cnt := 0, script := none }
  | some sc =>
    match script_has_emit sc.L with
    | (false, L1) => some { ret := 0, modp := modp, mod_cnt := mod_cnt, script := some { L := L1 } }
    | (true, L1) =>
      match lua_call (lua_getglobal L1 "emit") 0 1 with
      | none => none
      | some L2 =>
        match lua_tolstring L2 (-1) with
        | (L3, none, _) =>
          some { ret := -1, modp := modp, mod_cnt := mod_cnt, script := some { L := L3 } }
        | (L3, some raw, len) =>
          if malloc len then
            some { ret := 0, modp := some (raw.take len),
                   mod_cnt := (len / sizeof_bpf_insn) % 2 ^ 32,
                   script := some { L := lua_pop L3 1 } }
          else
            some { ret := -1, modp := modp, mod_cnt := mod_cnt,
                   script := some { L := lua_pop L3 1 } }

/-- `strnlen(s, n)` of `string.h`: the number of bytes before the first zero
byte among the first `n` bytes at `s`, or `n` when there is none. -/
def strnlen (s : List Byte) (n : Nat) : Nat :=
  ((s.take n).takeWhile (fun b => decide (b ≠ 0))).length

/-- `strndup(s, n)` of `string.h`: a fresh buffer holding the first
`strnlen(s, n)` bytes at `s` and a terminating zero, or `NULL`. -/
def strndup (malloc : Nat → Bool) (s : List Byte) (n : Nat) : Option (List Byte) :=
  if malloc (strnlen s n + 1) then some (s.take (strnlen s n) ++ [0]) else none

/-- What `script_exec_dump` leaves behind when it returns: the returned
pointer (`none` is `NULL`, otherwise the bytes of the buffer, terminator
included) and the session. -/
structure dump_result where
  ret : Option (List Byte)
  script : Option ipft_script

/-- `script_exec_dump` (script.c:318-345).  The memory behind the pointer
`lua_tolstring` hands out is the string's bytes followed by the zero byte
the runtime keeps after every string.  `none` when `dump` raises. -/
def script_exec_dump (malloc : Nat → Bool) (script : Option ipft_script)
    (data : List Byte) (len : Nat) : Option dump_result :=
  match script with
  | none => some { ret := none, script := none }
  | some sc =>
    match script_has_dump sc.L with
    | (false, L1) => some { ret := none, script := some { L := L1 } }
    | (true, L1) =>
      match lua_call (lua_pushlstring (lua_getglobal L1 "dump") data len) 1 1 with
      | none => none
      | some L2 =>
        match lua_tolstring L2 (-1) with
        | (L3, none, _) => some { ret := none, script := some { L := L3 } }
        | (L3, some dump, dump_len) =>
          some { ret := strndup malloc (dump ++ [0]) dump_len,
                 script := some { L := lua_pop L3 1 } }

/-! ### The functions bound under `ipft` (script.c:28-125) -/

/-- How a C function that the runtime calls ends. -/
inductive lua_CFunction_outcome where
  /-- `return n`: the `n` values on top of the stack are its results -/
  | returned (nresults : Nat) (L : lua_State)
  /-- `lua_error(L)`: the value on top of the stack is raised as a script
  error and the function does not return -/
  | raised (L : lua_State)
  /-- the handle in the context slot is `NULL` and is dereferenced -/
  | undefined

/-- The bytes of a string literal of the C source. -/
def c_literal (s : String) : List Byte :=
  s.toList.map (fun c => ⟨c.toNat % 256, Nat.mod_lt _ (by decide)⟩)

/-- `lua_pushliteral(L, s)`. -/
def lua_pushliteral (L : lua_State) (s : String) : lua_State :=
  { L with stack := .string (c_literal s) :: L.stack }

/-- `lua_tostring(L, idx)`, that is `lua_tolstring(L, idx, NULL)`. -/
def lua_tostring (L : lua_State) (idx : Int) : lua_State × Option (List Byte) :=
  ((lua_tolstring L idx).1, (lua_tolstring L idx).2.1)

/-- The text of an integer of the runtime (`LUA_INTEGER_FMT`, decimal),
which is what a number value carries here. -/
def lua_integer_text (i : Int) : List Byte :=
  c_literal (toString i)

/-- `lua_pushinteger(L, n)`; `n` is a `lua_Integer`, a signed 64-bit
integer. -/
def lua_pushinteger (L : lua_State) (n : Int) : lua_State :=
  { L with stack := .number (lua_integer_text n) :: L.stack }

/-- The conversion of a `size_t` to `lua_Integer` that passing `offset` or
`size` to `lua_pushinteger` performs: the value is kept below `2 ^ 63` and
wraps to a negative integer from there on. -/
def lua_Integer_of_size_t (n : Nat) : Int :=
  if n % 2 ^ 64 < 2 ^ 63 then ((n % 2 ^ 64 : Nat) : Int)
  else ((n % 2 ^ 64 : Nat) : Int) - 2 ^ 64

/-- `lua_pushstring(L, s)`: pushes a copy of the C string at `s`, the bytes
before the first zero byte, or `nil` when `s` is `NULL`. -/
def lua_pushstring (L : lua_State) (s : Option (List Byte)) : lua_State :=
  match s with
  | none => { L with stack := .nil :: L.stack }
  | some mem => { L with stack := .string (mem.takeWhile (fun b => decide (b ≠ 0))) :: L.stack }

/-- `script_ipft_offsetof` (script.c:31-59), the function behind
`ipft.offsetof`.  The stack of the runtime is the frame of the call: the
arguments, the last one on top. -/
def script_ipft_offsetof (L : lua_State) : lua_CFunction_outcome :=
  if lua_gettop L ≠ 2 then
    .raised (lua_pushliteral L "Incorrect number of argument. Expect 2.")
  else
    match lua_tostring L (-2) with
    | (L1, type) =>
      match lua_tostring L1 (-1) with
      | (L2, member) =>
        match L2.extraspace with
        | none => .undefined
        | some dinfo =>
          match dinfo.offsetof type member with
          | none => .raised (lua_pushliteral L2 "Couldn't get offset")
          | some offset => .returned 1 (lua_pushinteger L2 (lua_Integer_of_size_t offset))

/-- `script_ipft_sizeof` (script.c:64-91), the function behind
`ipft.sizeof`. -/
def script_ipft_sizeof (L : lua_State) : lua_CFunction_outcome :=
  if lua_gettop L ≠ 1 then
    .raised (lua_pushliteral L "Incorrect number of argument. Expect 1.")
  else
    match lua_tostring L (-1) with
    | (L1, type) =>
      match L1.extraspace with
      | none => .undefined
      | some dinfo =>
        match dinfo.sizeof type with
        | none => .raised (lua_pushliteral L1 "Couldn't get size")
        | some size => .returned 1 (lua_pushinteger L1 (lua_Integer_of_size_t size))

/-- `script_ipft_typeof` (script.c:96-125), the function behind
`ipft.typeof`.  `free(name)` leaves no trace here. -/
def script_ipft_typeof (L : lua_State) : lua_CFunction_outcome :=
  if lua_gettop L ≠ 2 then
    .raised (lua_pushliteral L "Incorrect number of argument. Expect 2.")
  else
    match lua_tostring L (-2) with
    | (L1, type) =>
      match lua_tostring L1 (-1) with
      | (L2, member) =>
        match L2.extraspace with
        | none => .undefined
        | some dinfo =>
          match dinfo.typeof type member with
          | none => .raised (lua_pushliteral L2 "Couldn't get member type")
          | some name => .returned 1 (lua_pushstring L2 (some name))

/-- The C string `lua_tostring` hands out for a value: the bytes of a
string, the text of a number, `NULL` for anything else. -/
def lua_value.cstring : lua_value → Option (List Byte)
  | .string s => some s
  | .number txt => some txt
  | _ => none

/-- The value `lua_tostring` leaves in the slot it was asked about: a number
has become the string of its text. -/
def lua_value.converted : lua_value → lua_value
  | .number txt => .string txt
  | v => v

/-- The table holds exactly the records `ts`: no key twice, each bucket's
slot holds the records of `ts` with its key in the order of `ts`, and every
key of `ts` has a bucket. -/
def table_holds (es : List kh_entry) (ts : List ipft_trace) : Prop :=
  (es.map kh_entry.key).Nodup ∧
  (∀ e ∈ es, e.val = some (with_key e.key ts) ∧ e.key ∈ ts.map ipft_trace.skb_addr) ∧
  (∀ t ∈ ts, t.skb_addr ∈ es.map kh_entry.key)

/-! ## Concrete inputs -/

/-- A bucket order that keeps the buckets as they come. -/
def layout_keep : kh_layout :=
  { fn := id, perm := fun l => List.Perm.refl l }

/-- A bucket order that turns the buckets around. -/
def layout_flip : kh_layout :=
  { fn := List.reverse, perm := fun l => List.reverse_perm l }

/-- First record of flow `10`. -/
def rec_a1 : ipft_trace :=
  { skb_addr := 10, tstamp := 1, faddr := 100, processor_id := 0, data := [1, 2] }

/-- Second record of flow `10`. -/
def rec_a2 : ipft_trace :=
  { skb_addr := 10, tstamp := 2, faddr := 101, processor_id := 1, data := [3] }

/-- A record of flow `20`. -/
def rec_b : ipft_trace :=
  { skb_addr := 20, tstamp := 3, faddr := 102, processor_id := 2, data := [] }

/-- Three inserts with keys A, A, B in which every allocation succeeds. -/
def calls_aab : List (put_env × ipft_trace) :=
  [({ kh_alloc := true, layout := layout_flip, kl_alloc := true }, rec_a1),
   ({ kh_alloc := true, layout := layout_flip, kl_alloc := true }, rec_a2),
   ({ kh_alloc := true, layout := layout_flip, kl_alloc := true }, rec_b)]

/-- The database after `calls_aab`. -/
def tdb_aab : ipft_tracedb :=
  { trace := some { entries := [{ key := 20, val := some [rec_b] },
                               { key := 10, val := some [rec_a1, rec_a2] }] } }

/-- A symbol table that knows every address. -/
def sdb_all : symsdb :=
  fun a => some (toString a)

/-- A symbol table that knows every address but `101`. -/
def sdb_gap : symsdb :=
  fun a => if a = 101 then none else some (toString a)

/-- A formatter that counts its calls behind `arg` and renders payloads of
even length only. -/
def cb_count : dump_cb Nat :=
  some (fun data len n => (if len % 2 = 0 then some (toString data.length) else none, n + 1))

/-- Globals of a script that defines `emit` (function `0`) and `dump`
(function `1`) and nothing else. -/
def globals_emit_dump : lua_globals :=
  fun n => if n = "emit" then .function 0 else if n = "dump" then .function 1 else .nil

/-- Globals of a script that defines `dump` (function `1`) only. -/
def globals_dump_only : lua_globals :=
  fun n => if n = "dump" then .function 1 else .nil

/-- A runtime with one value on its stack whose script has globals `g`,
whose `emit` returns the values `e` and whose `dump` returns the values
`d`. -/
def runtime_returning (g : lua_globals) (e d : List lua_value) : lua_State :=
  { stack := [.other 7],
    globals := g,
    run := fun f _ gl => if f = 0 then some (e, gl) else if f = 1 then some (d, gl) else none,
    extraspace := none }

/-- A module of `2 ^ 35` zero bytes, that is `2 ^ 32` instruction records. -/
def huge_module : List Byte :=
  List.replicate (2 ^ 35) 0

/-- A handle that knows `struct foo`: member `bar` at offset `16` with type
`int`, the structure being `24` bytes; every other query fails. -/
def dinfo_foo : ipft_debuginfo :=
  { offsetof := fun t m =>
      if t = some (c_literal "struct foo") ∧ m = some (c_literal "bar") then some 16 else none,
    sizeof := fun t => if t = some (c_literal "struct foo") then some 24 else none,
    typeof := fun t m =>
      if t = some (c_literal "struct foo") ∧ m = some (c_literal "bar") then
        some (c_literal "int")
      else none }

/-- A handle whose offset and size queries all succeed with the answer
`2 ^ 63`. -/
def dinfo_top : ipft_debuginfo :=
  { offsetof := fun _ _ => some (2 ^ 63),
    sizeof := fun _ => some (2 ^ 63),
    typeof := fun _ _ => none }

/-- The frame of a call with the arguments `args`, the last one on top, in a
runtime without globals whose context slot holds `dinfo`. -/
def frame_of (dinfo : ipft_debuginfo) (args : List lua_value) : lua_State :=
  { stack := args.reverse,
    globals := fun _ => .nil,
    run := fun _ _ _ => none,
    extraspace := some dinfo }

/-! # Theorems -/

/-! ## Lemmas on the hash table -/

theorem kh_present_iff (es : List kh_entry) (k : Nat) :
    kh_present es k = true ↔ k ∈ es.map kh_entry.key := by
  simp [kh_present, List.any_eq_true]

theorem kh_value_index (es : List kh_entry) (e : kh_entry)
    (hnd : (es.map kh_entry.key).Nodup) (he : e ∈ es) :
    kh_value es (kh_index es e.key) = e.val := by
  induction es with
  | nil => simp at he
  | cons x xs ih =>
    simp only [List.map_cons, List.nodup_cons] at hnd
    by_cases hx : x.key = e.key
    · have hxe : e = x := by
        rcases List.mem_cons.mp he with h | h
        · exact h
        · exact absurd (hx ▸ List.mem_map_of_mem kh_entry.key h) hnd.1
      subst hxe
      simp [kh_index, kh_value]
    · have hmem : e ∈ xs := by
        rcases List.mem_cons.mp he with h | h
        · exact absurd (congrArg kh_entry.key h).symm hx
        · exact h
      simp [kh_index, hx, kh_value, ih hnd.2 hmem]

theorem kh_set_value_index (es : List kh_entry) (k : Nat) (l : klist_trace_list)
    (hnd : (es.map kh_entry.key).Nodup) :
    kh_set_value es (kh_index es k) l
      = es.map (fun e => if e.key = k then { key := k, val := some l } else e) := by
  induction es with
  | nil => simp [kh_index, kh_set_value]
  | cons x xs ih =>
    simp only [List.map_cons, List.nodup_cons] at hnd
    by_cases hx : x.key = k
    · have hrest : xs.map (fun e => if e.key = k then ({ key := k, val := some l } : kh_entry) else e) = xs := by
        conv_rhs => rw [← List.map_id xs]
        apply List.map_congr_left
        intro e he
        have : e.key ≠ k := fun h => hnd.1 (by rw [hx, ← h]; exact List.mem_map_of_mem kh_entry.key he)
        simp [this]
      simp [kh_index, hx, kh_set_value, hrest]
    · simp [kh_index, hx, kh_set_value, ih hnd.2]

theorem with_key_append_same (ts : List ipft_trace) (t : ipft_trace) :
    with_key t.skb_addr (ts ++ [t]) = with_key t.skb_addr ts ++ [t] := by
  simp [with_key, List.filter_append]

theorem with_key_append_other (ts : List ipft_trace) (t : ipft_trace) (k : Nat)
    (h : t.skb_addr ≠ k) : with_key k (ts ++ [t]) = with_key k ts := by
  simp [with_key, List.filter_append, h]

theorem with_key_absent (ts : List ipft_trace) (k : Nat)
    (h : k ∉ ts.map ipft_trace.skb_addr) : with_key k ts = [] := by
  simp only [with_key, List.filter_eq_nil_iff]
  intro t ht
  have : t.skb_addr ≠ k := fun hk => h (hk ▸ List.mem_map_of_mem ipft_trace.skb_addr ht)
  simp [this]

theorem table_holds_nil : table_holds [] [] := by
  simp [table_holds]

theorem put_no_memory (env : put_env) (h : kh_trace_t) (t : ipft_trace)
    (hka : env.kh_alloc = false) :
    tracedb_put_trace env { trace := some h } t = .exited EXIT_FAILURE := by
  simp [tracedb_put_trace, kh_put, hka]

theorem put_present (env : put_env) (es : List kh_entry) (t : ipft_trace)
    (hka : env.kh_alloc = true) (hp : kh_present es t.skb_addr = true) :
    tracedb_put_trace env { trace := some { entries := es } } t =
      match kh_value (env.layout.fn es) (kh_index (env.layout.fn es) t.skb_addr) with
      | none => .undefined
      | some l => .returned 0 (ipft_tracedb.mk (some (kh_trace_t.mk
          (kh_set_value (env.layout.fn es) (kh_index (env.layout.fn es) t.skb_addr)
            (kl_pushp l t))))) := by
  simp [tracedb_put_trace, kh_put, hka, hp]

theorem put_new (env : put_env) (es : List kh_entry) (t : ipft_trace)
    (hka : env.kh_alloc = true) (hp : kh_present es t.skb_addr = false) :
    tracedb_put_trace env { trace := some { entries := es } } t =
      if env.kl_alloc then
        .returned 0 (ipft_tracedb.mk (some (kh_trace_t.mk
          (kh_set_value (env.layout.fn (es ++ [{ key := t.skb_addr, val := none }]))
            (kh_index (env.layout.fn (es ++ [{ key := t.skb_addr, val := none }])) t.skb_addr)
            (kl_pushp [] t)))))
      else
        .returned (-1) (ipft_tracedb.mk (some (kh_trace_t.mk
          (env.layout.fn (es ++ [{ key := t.skb_addr, val := none }]))))) := by
  cases hkl : env.kl_alloc <;> simp [tracedb_put_trace, kh_put, hka, hp, kl_init, hkl]

/-- One successful insert keeps the table in step with the records put. -/
theorem table_holds_put (env : put_env) (es : List kh_entry) (ts : List ipft_trace)
    (t : ipft_trace) (tdb1 : ipft_tracedb) (hinv : table_holds es ts)
    (hput : tracedb_put_trace env { trace := some { entries := es } } t = .returned 0 tdb1) :
    ∃ es1, tdb1 = { trace := some { entries := es1 } } ∧ table_holds es1 (ts ++ [t]) := by
  obtain ⟨hnd, hval, hkeys⟩ := hinv
  cases hka : env.kh_alloc with
  | false => rw [put_no_memory env _ t hka] at hput; cases hput
  | true =>
    cases hp : kh_present es t.skb_addr with
    | true =>
      -- the key is present
      rw [put_present env es t hka hp] at hput
      have hperm := env.layout.perm es
      have hnd1 : ((env.layout.fn es).map kh_entry.key).Nodup :=
        (hperm.map kh_entry.key).nodup_iff.mpr hnd
      obtain ⟨e, he, hek⟩ := List.mem_map.mp ((kh_present_iff es t.skb_addr).mp hp)
      have he1 : e ∈ env.layout.fn es := hperm.mem_iff.mpr he
      have hv := kh_value_index (env.layout.fn es) e hnd1 he1
      rw [hek, (hval e he).1, hek] at hv
      simp only [hv, put_outcome.returned.injEq, true_and] at hput
      refine ⟨_, hput.symm, ?_⟩
      rw [kh_set_value_index _ _ _ hnd1]
      refine ⟨?_, ?_, ?_⟩
      · have : ((env.layout.fn es).map (fun e => if e.key = t.skb_addr then
            ({ key := t.skb_addr, val := some (kl_pushp (with_key t.skb_addr ts) t) } : kh_entry) else e)).map
            kh_entry.key = (env.layout.fn es).map kh_entry.key := by
          rw [List.map_map]
          apply List.map_congr_left
          intro x _
          by_cases hx : x.key = t.skb_addr <;> simp [hx]
        rw [this]; exact hnd1
      · intro e' he'
        obtain ⟨x, hx, rfl⟩ := List.mem_map.mp he'
        have hx0 : x ∈ es := hperm.mem_iff.mp hx
        by_cases hxk : x.key = t.skb_addr
        · simp [hxk, kl_pushp, with_key_append_same]
        · simp only [hxk, if_false]
          rw [with_key_append_other ts t x.key (fun h => hxk h.symm)]
          refine ⟨(hval x hx0).1, ?_⟩
          rw [List.map_append]
          exact List.mem_append_left _ (hval x hx0).2
      · intro t' ht'
        have hmem : t'.skb_addr ∈ es.map kh_entry.key := by
          rcases List.mem_append.mp ht' with h | h
          · exact hkeys t' h
          · rw [List.mem_singleton.mp h]; exact (kh_present_iff es t.skb_addr).mp hp
        obtain ⟨x, hx, hxk⟩ := List.mem_map.mp hmem
        refine List.mem_map.mpr ⟨_, List.mem_map.mpr ⟨x, hperm.mem_iff.mpr hx, rfl⟩, ?_⟩
        by_cases h : x.key = t.skb_addr <;> simp [h, ← hxk]
    | false =>
      -- the key is new
      rw [put_new env es t hka hp] at hput
      have hnew : t.skb_addr ∉ es.map kh_entry.key := fun h => by
        rw [(kh_present_iff es t.skb_addr).mpr h] at hp; cases hp
      have hperm := env.layout.perm (es ++ [{ key := t.skb_addr, val := none }])
      have hndb : ((es ++ [({ key := t.skb_addr, val := none } : kh_entry)]).map kh_entry.key).Nodup := by
        rw [List.map_append, List.nodup_append]
        refine ⟨hnd, by simp, ?_⟩
        intro a ha hb
        simp only [List.map_cons, List.map_nil, List.mem_singleton] at hb
        exact hnew (hb ▸ ha)
      have hnd1 := (hperm.map kh_entry.key).nodup_iff.mpr hndb
      cases hkl : env.kl_alloc with
      | false => simp [hkl] at hput
      | true =>
        simp only [hkl, if_true, put_outcome.returned.injEq, true_and] at hput
        refine ⟨_, hput.symm, ?_⟩
        rw [kh_set_value_index _ _ _ hnd1]
        have hnone : t.skb_addr ∉ ts.map ipft_trace.skb_addr := by
          intro h
          obtain ⟨t', ht', hk⟩ := List.mem_map.mp h
          exact hnew (hk ▸ hkeys t' ht')
        refine ⟨?_, ?_, ?_⟩
        · have : ((env.layout.fn (es ++ [{ key := t.skb_addr, val := none }])).map
              (fun e => if e.key = t.skb_addr then
                ({ key := t.skb_addr, val := some (kl_pushp [] t) } : kh_entry) else e)).map kh_entry.key
              = (env.layout.fn (es ++ [{ key := t.skb_addr, val := none }])).map kh_entry.key := by
            rw [List.map_map]
            apply List.map_congr_left
            intro x _
            by_cases hx : x.key = t.skb_addr <;> simp [hx]
          rw [this]; exact hnd1
        · intro e' he'
          obtain ⟨x, hx, rfl⟩ := List.mem_map.mp he'
          have hx0 := hperm.mem_iff.mp hx
          by_cases hxk : x.key = t.skb_addr
          · simp [hxk, kl_pushp, with_key_append_same, with_key_absent ts _ hnone]
          · simp only [hxk, if_false]
            have hxes : x ∈ es := by
              rcases List.mem_append.mp hx0 with h | h
              · exact h
              · exact absurd (by rw [List.mem_singleton.mp h]) hxk
            rw [with_key_append_other ts t x.key (fun h => hxk h.symm)]
            refine ⟨(hval x hxes).1, ?_⟩
            rw [List.map_append]
            exact List.mem_append_left _ (hval x hxes).2
        · intro t' ht'
          have hmem : t'.skb_addr ∈ (es ++ [({ key := t.skb_addr, val := none } : kh_entry)]).map kh_entry.key := by
            rw [List.map_append]
            rcases List.mem_append.mp ht' with h | h
            · exact List.mem_append_left _ (hkeys t' h)
            · rw [List.mem_singleton.mp h]; simp
          obtain ⟨x, hx, hxk⟩ := List.mem_map.mp hmem
          refine List.mem_map.mpr ⟨_, List.mem_map.mpr ⟨x, hperm.mem_iff.mpr hx, rfl⟩, ?_⟩
          by_cases h : x.key = t.skb_addr <;> simp [h, ← hxk]

/-- A run of successful inserts keeps the table in step with the records
put. -/
theorem table_holds_puts (calls : List (put_env × ipft_trace)) (es : List kh_entry)
    (ts : List ipft_trace) (tdb : ipft_tracedb) (hinv : table_holds es ts)
    (hput : tracedb_put_traces { trace := some { entries := es } } calls = some tdb) :
    ∃ es1, tdb = { trace := some { entries := es1 } } ∧
      table_holds es1 (ts ++ calls.map Prod.snd) := by
  induction calls generalizing es ts with
  | nil =>
    simp only [tracedb_put_traces, Option.some.injEq] at hput
    exact ⟨es, hput.symm, by simpa using hinv⟩
  | cons c rest ih =>
    obtain ⟨env, t⟩ := c
    simp only [tracedb_put_traces] at hput
    cases hstep : tracedb_put_trace env { trace := some { entries := es } } t with
    | exited st => simp [hstep] at hput
    | undefined => simp [hstep] at hput
    | returned ret tdb1 =>
      by_cases hret : ret = 0
      · subst hret
        simp only [hstep] at hput
        obtain ⟨es1, rfl, hinv1⟩ := table_holds_put env es ts t tdb1 hinv hstep
        obtain ⟨es2, h2, hinv2⟩ := ih es1 (ts ++ [t]) hinv1 hput
        exact ⟨es2, h2, by simpa using hinv2⟩
      · rw [hstep] at hput
        split at hput
        · rename_i heq
          simp only [put_outcome.returned.injEq] at heq
          exact absurd heq.1 hret
        · cases hput

theorem tracedb_create_fresh (p : Option ipft_tracedb) :
    tracedb_create true true p = (0, some { trace := some { entries := [] } }) := by
  simp [tracedb_create, kh_init]

/-- The database a successful `tracedb_create` hands out, after a run of
successful inserts, holds exactly the records put. -/
theorem table_holds_fresh (p : Option ipft_tracedb) (tdb0 tdb : ipft_tracedb)
    (calls : List (put_env × ipft_trace))
    (hnew : tracedb_create true true p = (0, some tdb0))
    (hput : tracedb_put_traces tdb0 calls = some tdb) :
    ∃ es, tdb = { trace := some { entries := es } } ∧ table_holds es (calls.map Prod.snd) := by
  rw [tracedb_create_fresh] at hnew
  simp only [Prod.mk.injEq, Option.some.injEq, true_and] at hnew
  subst hnew
  simpa using table_holds_puts calls [] [] tdb table_holds_nil hput

theorem table_holds_length (es : List kh_entry) (ts : List ipft_trace)
    (h : table_holds es ts) :
    es.length = (ts.map ipft_trace.skb_addr).dedup.length := by
  obtain ⟨hnd, hval, hkeys⟩ := h
  have hperm : (es.map kh_entry.key).Perm (ts.map ipft_trace.skb_addr).dedup := by
    rw [List.perm_ext_iff_of_nodup hnd (List.nodup_dedup _)]
    intro k
    rw [List.mem_dedup]
    constructor
    · intro hk
      obtain ⟨e, he, rfl⟩ := List.mem_map.mp hk
      exact (hval e he).2
    · intro hk
      obtain ⟨t, ht, rfl⟩ := List.mem_map.mp hk
      exact hkeys t ht
  simpa using hperm.length_eq

theorem table_holds_entries (es : List kh_entry) (ts : List ipft_trace)
    (h : table_holds es ts) :
    es = (es.map kh_entry.key).map (fun k => { key := k, val := some (with_key k ts) }) := by
  rw [List.map_map]
  conv_lhs => rw [← List.map_id es]
  apply List.map_congr_left
  intro e he
  have := (h.2.1 e he).1
  cases e
  simp_all

/-! ## Lemmas on the dump -/

theorem dump_trace_resolved {σ : Type} (sdb : symsdb) (cb : dump_cb σ) (s : dump_state σ)
    (t : ipft_trace) (h : (sdb t.faddr).isSome = true) :
    (dump_trace sdb cb s t).2 = .completed := by
  obtain ⟨name, hn⟩ := Option.isSome_iff_exists.mp h
  unfold dump_trace
  rw [hn]
  cases cb with
  | none => rfl
  | some f =>
    simp only
    rcases hf : f t.data t.data.length s.arg with ⟨d, a⟩
    cases d <;> rfl

theorem dump_list_resolved {σ : Type} (sdb : symsdb) (cb : dump_cb σ) (l : List ipft_trace)
    (s : dump_state σ) (h : ∀ t ∈ l, (sdb t.faddr).isSome = true) :
    dump_list sdb cb l s = (l.foldl (fun s t => (dump_trace sdb cb s t).1) s, .completed) := by
  induction l generalizing s with
  | nil => rfl
  | cons t l ih =>
    have ht := dump_trace_resolved sdb cb s t (h t (List.mem_cons_self _ _))
    rw [dump_list]
    rcases hd : dump_trace sdb cb s t with ⟨s1, st⟩
    rw [hd] at ht
    simp only at ht
    subst ht
    simp only [List.foldl_cons, hd]
    exact ih s1 (fun x hx => h x (List.mem_cons_of_mem _ hx))

theorem dump_buckets_resolved {σ : Type} (sdb : symsdb) (cb : dump_cb σ)
    (secs : List (Nat × List ipft_trace)) (s : dump_state σ)
    (h : ∀ p ∈ secs, ∀ t ∈ p.2, (sdb t.faddr).isSome = true) :
    dump_buckets sdb cb (secs.map (fun p => { key := p.1, val := some p.2 })) s
      = (secs.foldl (fun s p => p.2.foldl (fun s t => (dump_trace sdb cb s t).1)
          (s.emit .flow_sep)) s, .completed) := by
  induction secs generalizing s with
  | nil => rfl
  | cons p ps ih =>
    simp only [List.map_cons, dump_buckets, List.foldl_cons]
    rw [dump_list_resolved sdb cb p.2 _ (h p (List.mem_cons_self _ _))]
    exact ih _ (fun x hx => h x (List.mem_cons_of_mem _ hx))

theorem dump_trace_out_grows {σ : Type} (sdb : symsdb) (cb : dump_cb σ) (s : dump_state σ)
    (t : ipft_trace) : s.out <+: (dump_trace sdb cb s t).1.out := by
  unfold dump_trace
  cases sdb t.faddr with
  | none => exact List.prefix_append _ _
  | some name =>
    cases cb with
    | none => exact List.prefix_append _ _
    | some f =>
      simp only
      rcases f t.data t.data.length s.arg with ⟨d, a⟩
      cases d <;> exact List.prefix_append _ _

theorem dump_list_out_grows {σ : Type} (sdb : symsdb) (cb : dump_cb σ) (l : List ipft_trace)
    (s : dump_state σ) : s.out <+: (dump_list sdb cb l s).1.out := by
  induction l generalizing s with
  | nil => exact List.prefix_refl _
  | cons t l ih =>
    rw [dump_list]
    have h1 := dump_trace_out_grows sdb cb s t
    rcases hd : dump_trace sdb cb s t with ⟨s1, st⟩
    rw [hd] at h1
    cases st with
    | completed => exact h1.trans (ih s1)
    | aborted => exact h1
    | undefined => exact h1

theorem dump_buckets_out_grows {σ : Type} (sdb : symsdb) (cb : dump_cb σ) (es : List kh_entry)
    (s : dump_state σ) : s.out <+: (dump_buckets sdb cb es s).1.out := by
  induction es generalizing s with
  | nil => exact List.prefix_refl _
  | cons e es ih =>
    rw [dump_buckets]
    have h0 : s.out <+: (s.emit .flow_sep).out := List.prefix_append _ _
    cases e.val with
    | none => exact h0
    | some l =>
      simp only
      have h1 := dump_list_out_grows sdb cb l (s.emit .flow_sep)
      rcases hd : dump_list sdb cb l (s.emit .flow_sep) with ⟨s1, st⟩
      rw [hd] at h1
      cases st with
      | completed => exact (h0.trans h1).trans (ih s1)
      | aborted => exact h0.trans h1
      | undefined => exact h0.trans h1

theorem dump_list_append {σ : Type} (sdb : symsdb) (cb : dump_cb σ) (l1 l2 : List ipft_trace)
    (s s1 : dump_state σ) (h : dump_list sdb cb l1 s = (s1, .completed)) :
    dump_list sdb cb (l1 ++ l2) s = dump_list sdb cb l2 s1 := by
  induction l1 generalizing s with
  | nil =>
    simp only [dump_list, Prod.mk.injEq, and_true] at h
    simp [h]
  | cons t l ih =>
    rw [dump_list] at h
    rw [List.cons_append, dump_list]
    rcases hd : dump_trace sdb cb s t with ⟨s2, st⟩
    rw [hd] at h
    cases st with
    | completed => exact ih s2 h
    | aborted => simp at h
    | undefined => simp at h

theorem dump_buckets_split {σ : Type} (sdb : symsdb) (cb : dump_cb σ)
    (pre : List kh_entry) (k : Nat) (l1 l2 : List ipft_trace) (post : List kh_entry)
    (s s1 : dump_state σ)
    (h : dump_buckets sdb cb (pre ++ [{ key := k, val := some l1 }]) s = (s1, .completed)) :
    dump_buckets sdb cb (pre ++ { key := k, val := some (l1 ++ l2) } :: post) s =
      match dump_list sdb cb l2 s1 with
      | (s2, .completed) => dump_buckets sdb cb post s2
      | r => r := by
  induction pre generalizing s with
  | nil =>
    simp only [List.nil_append, dump_buckets] at h ⊢
    rcases hd : dump_list sdb cb l1 (s.emit .flow_sep) with ⟨s2, st⟩
    rw [hd] at h
    cases st with
    | completed =>
      simp only [Prod.mk.injEq, and_true] at h
      subst h
      rw [dump_list_append sdb cb l1 l2 _ _ hd]
    | aborted => simp at h
    | undefined => simp at h
  | cons e es ih =>
    rw [List.cons_append, dump_buckets] at h
    rw [List.cons_append, dump_buckets]
    cases hv : e.val with
    | none => simp [hv] at h
    | some l =>
      simp only [hv] at h ⊢
      rcases hd : dump_list sdb cb l (s.emit .flow_sep) with ⟨s2, st⟩
      rw [hd] at h
      cases st with
      | completed => exact ih s2 h
      | aborted => simp at h
      | undefined => simp at h

theorem dump_trace_extends {σ : Type} (sdb sdb1 : symsdb) (cb : dump_cb σ) (s s1 : dump_state σ)
    (t : ipft_trace) (hext : ∀ a name, sdb a = some name → sdb1 a = some name)
    (h : dump_trace sdb cb s t = (s1, .completed)) :
    dump_trace sdb1 cb s t = (s1, .completed) := by
  unfold dump_trace at h ⊢
  cases hr : sdb t.faddr with
  | none => simp [hr] at h
  | some name => rw [hr] at h; rw [hext _ _ hr]; exact h

theorem dump_list_extends {σ : Type} (sdb sdb1 : symsdb) (cb : dump_cb σ) (l : List ipft_trace)
    (s s1 : dump_state σ) (hext : ∀ a name, sdb a = some name → sdb1 a = some name)
    (h : dump_list sdb cb l s = (s1, .completed)) :
    dump_list sdb1 cb l s = (s1, .completed) := by
  induction l generalizing s with
  | nil => exact h
  | cons t l ih =>
    rw [dump_list] at h ⊢
    rcases hd : dump_trace sdb cb s t with ⟨s2, st⟩
    rw [hd] at h
    cases st with
    | completed =>
      rw [dump_trace_extends sdb sdb1 cb s s2 t hext hd]
      exact ih s2 h
    | aborted => simp at h
    | undefined => simp at h

theorem dump_buckets_extends {σ : Type} (sdb sdb1 : symsdb) (cb : dump_cb σ)
    (es : List kh_entry) (s s1 : dump_state σ)
    (hext : ∀ a name, sdb a = some name → sdb1 a = some name)
    (h : dump_buckets sdb cb es s = (s1, .completed)) :
    dump_buckets sdb1 cb es s = (s1, .completed) := by
  induction es generalizing s with
  | nil => exact h
  | cons e es ih =>
    rw [dump_buckets] at h ⊢
    cases hv : e.val with
    | none => simp [hv] at h
    | some l =>
      simp only [hv] at h ⊢
      rcases hd : dump_list sdb cb l (s.emit .flow_sep) with ⟨s2, st⟩
      rw [hd] at h
      cases st with
      | completed =>
        rw [dump_list_extends sdb sdb1 cb l _ s2 hext hd]
        exact ih s2 h
      | aborted => simp at h
      | undefined => simp at h

/-! ## Claims on the trace database -/

/-- C1: after any run of successful `tracedb_put_trace` calls on a freshly
created database, `tracedb_get_total` is the number of distinct flow keys
among the records put, however many records share a key. -/
theorem tracedb_get_total_distinct_keys (p : Option ipft_tracedb) (tdb0 tdb : ipft_tracedb)
    (calls : List (put_env × ipft_trace))
    (hnew : tracedb_create true true p = (0, some tdb0))
    (hput : tracedb_put_traces tdb0 calls = some tdb) :
    tracedb_get_total tdb = some ((calls.map (fun c => c.2.skb_addr)).dedup.length) := by
  obtain ⟨es, rfl, hinv⟩ := table_holds_fresh p tdb0 tdb calls hnew hput
  have := table_holds_length es _ hinv
  simp only [tracedb_get_total, Option.map_some', kh_size, this, List.map_map]
  rfl

/-- C2: after any run of successful `tracedb_put_trace` calls on a freshly
created database, no flow key has two buckets, the keys with a bucket are the
keys put, and a dump whose resolver succeeds on every record completes and
is, for each key in bucket order, the flow separator followed by the loop
body run on the records put with that key, each once, in the order they were
put. -/
theorem tracedb_dump_sections {σ : Type} (p : Option ipft_tracedb) (tdb0 tdb : ipft_tracedb)
    (calls : List (put_env × ipft_trace)) (sdb : symsdb) (cb : dump_cb σ) (arg : σ)
    (hnew : tracedb_create true true p = (0, some tdb0))
    (hput : tracedb_put_traces tdb0 calls = some tdb)
    (hres : ∀ c ∈ calls, (sdb c.2.faddr).isSome = true) :
    ∃ h, tdb.trace = some h ∧ (kh_keys h).Nodup ∧
      (∀ k, k ∈ kh_keys h ↔ ∃ c ∈ calls, c.2.skb_addr = k) ∧
      tracedb_dump tdb sdb cb arg =
        ((kh_keys h).foldl (fun s k =>
            (with_key k (calls.map Prod.snd)).foldl (fun s t => (dump_trace sdb cb s t).1)
              (s.emit .flow_sep)) { out := [], arg := arg }, .completed) := by
  obtain ⟨es, rfl, hinv⟩ := table_holds_fresh p tdb0 tdb calls hnew hput
  refine ⟨{ entries := es }, rfl, hinv.1, ?_, ?_⟩
  · intro k
    constructor
    · intro hk
      obtain ⟨e, he, rfl⟩ := List.mem_map.mp hk
      obtain ⟨t, ht, hte⟩ := List.mem_map.mp (hinv.2.1 e he).2
      obtain ⟨c, hc, rfl⟩ := List.mem_map.mp ht
      exact ⟨c, hc, hte⟩
    · rintro ⟨c, hc, rfl⟩
      exact hinv.2.2 c.2 (List.mem_map_of_mem Prod.snd hc)
  · simp only [tracedb_dump, kh_keys]
    conv_lhs => rw [table_holds_entries es _ hinv]
    have hsec := dump_buckets_resolved sdb cb
      ((es.map kh_entry.key).map (fun k => (k, with_key k (calls.map Prod.snd))))
      { out := [], arg := arg } ?_
    · simpa only [List.map_map, List.foldl_map, Function.comp_def] using hsec
    · intro q hq t ht
      obtain ⟨k, _, rfl⟩ := List.mem_map.mp hq
      have : t ∈ calls.map Prod.snd := (List.mem_filter.mp ht).1
      obtain ⟨c, hc, rfl⟩ := List.mem_map.mp this
      exact hres c hc

/-- Witness of C1: keys A, A, B give a total of two. -/
theorem tracedb_get_total_distinct_keys_witness :
    tracedb_create true true none = (0, some { trace := some { entries := [] } }) ∧
    tracedb_put_traces { trace := some { entries := [] } } calls_aab = some tdb_aab ∧
    tracedb_get_total tdb_aab = some ((calls_aab.map (fun c => c.2.skb_addr)).dedup.length) ∧
    (calls_aab.map (fun c => c.2.skb_addr)).dedup.length = 2 :=
  ⟨by rfl, by rfl,
   tracedb_get_total_distinct_keys none { trace := some { entries := [] } } tdb_aab calls_aab
     (by rfl) (by rfl),
   by decide⟩

/-- Witness of C2: after puts with keys A, A, B the dump has two sections,
the section of A with its two records in insertion order and the section of
B with one. -/
theorem tracedb_dump_sections_witness :
    tracedb_create true true none = (0, some { trace := some { entries := [] } }) ∧
    tracedb_put_traces { trace := some { entries := [] } } calls_aab = some tdb_aab ∧
    (∀ c ∈ calls_aab, (sdb_all c.2.faddr).isSome = true) ∧
    (∃ h, tdb_aab.trace = some h ∧ (kh_keys h).Nodup ∧
      (∀ k, k ∈ kh_keys h ↔ ∃ c ∈ calls_aab, c.2.skb_addr = k) ∧
      tracedb_dump tdb_aab sdb_all cb_count 0 =
        ((kh_keys h).foldl (fun s k =>
            (with_key k (calls_aab.map Prod.snd)).foldl
              (fun s t => (dump_trace sdb_all cb_count s t).1)
              (s.emit .flow_sep)) { out := [], arg := 0 }, .completed)) ∧
    (tracedb_dump tdb_aab sdb_all cb_count 0).1.out =
      [.flow_sep, .cb_call [] 0, .line_dump 3 2 "102" "0",
       .flow_sep, .cb_call [1, 2] 2, .line_dump 1 0 "100" "2", .cb_call [3] 1, .line 2 1 "101"] :=
  ⟨by rfl, by rfl, by decide,
   tracedb_dump_sections none { trace := some { entries := [] } } tdb_aab calls_aab sdb_all
     cb_count 0 (by rfl) (by rfl) (by decide),
   by decide⟩

/-- C10: when the symbol of a record cannot be resolved, `tracedb_dump`
returns at once.  With `t` the first record that fails, the dump is the
completed dump of the database cut off just before `t`, followed only by the
error message: nothing is printed for `t`, the formatter is not called for
it, and neither the rest of its list nor any later bucket matters.  What was
written before `t` is the beginning of what the dump writes under any
resolver that agrees with this one wherever this one succeeds. -/
theorem tracedb_dump_unresolved_aborts {σ : Type} (sdb sdb1 : symsdb) (cb : dump_cb σ) (arg : σ)
    (pre : List (Nat × List ipft_trace)) (k : Nat) (l1 l2 : List ipft_trace) (t : ipft_trace)
    (post : List kh_entry)
    (hpre : ∀ p ∈ pre, ∀ r ∈ p.2, (sdb r.faddr).isSome = true)
    (hl1 : ∀ r ∈ l1, (sdb r.faddr).isSome = true)
    (ht : sdb t.faddr = none)
    (hext : ∀ a name, sdb a = some name → sdb1 a = some name) :
    ∃ s1,
      tracedb_dump (ipft_tracedb.mk (some (kh_trace_t.mk
        (pre.map (fun p => kh_entry.mk p.1 (some p.2)) ++ [kh_entry.mk k (some l1)]))))
        sdb cb arg = (s1, .completed) ∧
      tracedb_dump (ipft_tracedb.mk (some (kh_trace_t.mk
        (pre.map (fun p => kh_entry.mk p.1 (some p.2))
          ++ kh_entry.mk k (some (l1 ++ t :: l2)) :: post))))
        sdb cb arg = (s1.emit .resolve_failed, .aborted) ∧
      s1.out <+: (tracedb_dump (ipft_tracedb.mk (some (kh_trace_t.mk
        (pre.map (fun p => kh_entry.mk p.1 (some p.2))
          ++ kh_entry.mk k (some (l1 ++ t :: l2)) :: post))))
        sdb1 cb arg).1.out := by
  have hcut := dump_buckets_resolved sdb cb (pre ++ [(k, l1)]) { out := [], arg := arg } (by
    intro p hp r hr
    rcases List.mem_append.mp hp with h | h
    · exact hpre p h r hr
    · rw [List.mem_singleton.mp h] at hr; exact hl1 r hr)
  rw [List.map_append, List.map_cons, List.map_nil] at hcut
  refine ⟨_, hcut, ?_, ?_⟩
  · simp only [tracedb_dump]
    rw [dump_buckets_split sdb cb _ k l1 (t :: l2) post _ _ hcut]
    simp [dump_list, dump_trace, ht]
  · simp only [tracedb_dump]
    rw [dump_buckets_split sdb1 cb _ k l1 (t :: l2) post _ _
      (dump_buckets_extends sdb sdb1 cb _ _ _ hext hcut)]
    generalize (List.foldl (fun s p => List.foldl (fun s t => (dump_trace sdb cb s t).1)
      (s.emit dump_event.flow_sep) p.2) { out := [], arg := arg } (pre ++ [(k, l1)])) = s1
    have h1 := dump_list_out_grows sdb1 cb (t :: l2) s1
    rcases hd : dump_list sdb1 cb (t :: l2) s1 with ⟨s2, st⟩
    rw [hd] at h1
    cases st with
    | completed => exact h1.trans (dump_buckets_out_grows sdb1 cb post s2)
    | aborted => exact h1
    | undefined => exact h1

/-- Witness of C10: the second record of flow A cannot be resolved; its
line, its formatter call and the whole of flow B are missing. -/
theorem tracedb_dump_unresolved_aborts_witness :
    (∀ p ∈ ([] : List (Nat × List ipft_trace)), ∀ r ∈ p.2, (sdb_gap r.faddr).isSome = true) ∧
    (∀ r ∈ [rec_a1], (sdb_gap r.faddr).isSome = true) ∧
    sdb_gap rec_a2.faddr = none ∧
    (∀ a name, sdb_gap a = some name → sdb_all a = some name) ∧
    (∃ s1,
      tracedb_dump (ipft_tracedb.mk (some (kh_trace_t.mk
        (([] : List (Nat × List ipft_trace)).map (fun p => kh_entry.mk p.1 (some p.2))
          ++ [kh_entry.mk 10 (some [rec_a1])]))))
        sdb_gap cb_count 0 = (s1, .completed) ∧
      tracedb_dump (ipft_tracedb.mk (some (kh_trace_t.mk
        (([] : List (Nat × List ipft_trace)).map (fun p => kh_entry.mk p.1 (some p.2))
          ++ kh_entry.mk 10 (some ([rec_a1] ++ rec_a2 :: [])) :: [kh_entry.mk 20 (some [rec_b])]))))
        sdb_gap cb_count 0 = (s1.emit .resolve_failed, .aborted) ∧
      s1.out <+: (tracedb_dump (ipft_tracedb.mk (some (kh_trace_t.mk
        (([] : List (Nat × List ipft_trace)).map (fun p => kh_entry.mk p.1 (some p.2))
          ++ kh_entry.mk 10 (some ([rec_a1] ++ rec_a2 :: [])) :: [kh_entry.mk 20 (some [rec_b])]))))
        sdb_all cb_count 0).1.out) ∧
    (tracedb_dump (ipft_tracedb.mk (some (kh_trace_t.mk
        [kh_entry.mk 10 (some [rec_a1, rec_a2]), kh_entry.mk 20 (some [rec_b])])))
        sdb_gap cb_count 0).1.out
      = [.flow_sep, .cb_call [1, 2] 2, .line_dump 1 0 "100" "2", .resolve_failed] :=
  ⟨by decide, by decide, by decide,
   fun a name h => by
     by_cases ha : a = 101
     · simp [sdb_gap, ha] at h
     · simpa [sdb_gap, sdb_all, ha] using h,
   tracedb_dump_unresolved_aborts sdb_gap sdb_all cb_count 0 [] 10 [rec_a1] [] rec_a2
     [{ key := 20, val := some [rec_b] }] (by decide) (by decide) (by decide)
     (fun a name h => by
       by_cases ha : a = 101
       · simp [sdb_gap, ha] at h
       · simpa [sdb_gap, sdb_all, ha] using h),
   by decide⟩

/-- C3: when `malloc` succeeds and `kh_init` returns `NULL`, `tracedb_create`
returns `0` and hands out a database whose index is `NULL`: the test after
`kh_init` looks at `tdb`, not at `tdb->trace`.  Only a failed `malloc` makes
it return `-1`. -/
theorem tracedb_create_kh_init_null (p : Option ipft_tracedb) :
    tracedb_create true false p = (0, some { trace := none }) ∧
    tracedb_create false false p = (-1, p) ∧
    tracedb_create false true p = (-1, p) := by
  simp [tracedb_create, kh_init]

/-- C4: on an empty database, an insert whose `kl_init` fails returns `-1`
and yet leaves the new key in the index, with a value slot that was never
written: the total goes from `0` to `1`, a later insert with that key and a
later dump walk the unwritten slot. -/
theorem tracedb_put_trace_kl_init_null :
    tracedb_put_trace { kh_alloc := true, layout := layout_keep, kl_alloc := false }
      { trace := some { entries := [] } } rec_a1
      = .returned (-1) { trace := some { entries := [{ key := 10, val := none }] } } ∧
    tracedb_get_total { trace := some { entries := [] } } = some 0 ∧
    tracedb_get_total { trace := some { entries := [{ key := 10, val := none }] } } = some 1 ∧
    tracedb_put_trace { kh_alloc := true, layout := layout_keep, kl_alloc := true }
      { trace := some { entries := [{ key := 10, val := none }] } } rec_a2 = .undefined ∧
    (tracedb_dump { trace := some { entries := [{ key := 10, val := none }] } }
      sdb_all cb_count 0).2 = .undefined := by
  refine ⟨by rfl, by rfl, by rfl, by rfl, by rfl⟩

/-! ## Lemmas on the script engine -/

theorem script_is_function_eq (L : lua_State) (name : String) :
    script_is_function L name
      = ((match L.globals name with | .function _ => true | _ => false), L) := by
  simp only [script_is_function, lua_getglobal, lua_isfunction, lua_index, lua_pop]
  cases hg : L.globals name <;> simp

theorem takeWhile_take_length {α : Type} (p : α → Bool) (l : List α) :
    l.take (l.takeWhile p).length = l.takeWhile p := by
  induction l with
  | nil => rfl
  | cons a l ih =>
    by_cases h : p a = true
    · simp [List.takeWhile_cons, h, ih]
    · simp [List.takeWhile_cons, h]

theorem takeWhile_length_le {α : Type} (p : α → Bool) (l : List α) :
    (l.takeWhile p).length ≤ l.length := by
  induction l with
  | nil => simp
  | cons a l ih =>
    by_cases h : p a = true
    · simp [List.takeWhile_cons, h, ih]
    · simp [List.takeWhile_cons, h]

theorem strnlen_lua_string (s : List Byte) :
    strnlen (s ++ [0]) s.length = (s.takeWhile (fun b => decide (b ≠ 0))).length := by
  simp [strnlen]

theorem strndup_lua_string (malloc : Nat → Bool) (s : List Byte) :
    strndup malloc (s ++ [0]) s.length =
      if malloc ((s.takeWhile (fun b => decide (b ≠ 0))).length + 1) then
        some (s.takeWhile (fun b => decide (b ≠ 0)) ++ [0])
      else none := by
  unfold strndup
  rw [strnlen_lua_string, List.take_append_of_le_length (takeWhile_length_le _ s),
    takeWhile_take_length]

theorem script_exec_emit_string (malloc : Nat → Bool) (L : lua_State) (modp : Option (List Byte))
    (mod_cnt f : Nat) (s : List Byte) (rets : List lua_value) (g : lua_globals)
    (hemit : L.globals "emit" = .function f)
    (hrun : L.run f [] L.globals = some (.string s :: rets, g)) :
    script_exec_emit malloc (some { L := L }) modp mod_cnt =
      if malloc s.length then
        some { ret := 0, modp := some s, mod_cnt := (s.length / sizeof_bpf_insn) % 2 ^ 32,
               script := some { L := { L with globals := g } } }
      else
        some { ret := -1, modp := modp, mod_cnt := mod_cnt,
               script := some { L := { L with globals := g } } } := by
  simp only [script_exec_emit, script_has_emit, script_is_function_eq, hemit, lua_call,
    lua_getglobal, List.drop_zero, List.take_zero, List.reverse_nil, hrun, lua_adjust,
    lua_tolstring, lua_index, lua_pop]
  simp

theorem huge_module_length : huge_module.length = 2 ^ 35 :=
  List.length_replicate _ _

theorem huge_module_count : huge_module.length / sizeof_bpf_insn % 2 ^ 32 = 0 := by
  rw [huge_module_length]; decide

theorem huge_module_insns : huge_module.length / sizeof_bpf_insn = 2 ^ 32 := by
  rw [huge_module_length]; decide

theorem script_exec_emit_huge :
    script_exec_emit (fun _ => true)
        (some (ipft_script.mk (runtime_returning globals_emit_dump [.string huge_module] [])))
        none 0
      = some (emit_result.mk 0 (some huge_module)
          (huge_module.length / sizeof_bpf_insn % 2 ^ 32)
          (some (ipft_script.mk (runtime_returning globals_emit_dump [.string huge_module] [])))) := by
  rw [script_exec_emit_string (fun _ => true) _ none 0 0 huge_module [] globals_emit_dump
    rfl rfl]
  rfl

/-- C5: `script_create` without a path hands out the no-op session (`NULL`)
and succeeds; on that session `script_exec_emit` succeeds with a `NULL`
module and count `0`, and `script_exec_dump` returns `NULL`, whatever the
payload bytes and length, whatever the outputs held and whatever the
allocator would do. -/
theorem noop_session_emit_dump (env : script_env) (scriptp : Option ipft_script)
    (dinfo : Option ipft_debuginfo) (malloc : Nat → Bool) (modp : Option (List Byte))
    (mod_cnt : Nat) (data : List Byte) (len : Nat) :
    script_create env scriptp dinfo none = some (0, none) ∧
    script_exec_emit malloc none modp mod_cnt
      = some { ret := 0, modp := none, mod_cnt := 0, script := none } ∧
    script_exec_dump malloc none data len = some { ret := none, script := none } :=
  ⟨rfl, rfl, rfl⟩

/-- C6 fails as stated: when `emit` returns a string of `2 ^ 35` bytes the
call succeeds and reports count `0`, while the string holds `2 ^ 32` whole
instructions. -/
theorem script_exec_emit_count_wraps :
    script_exec_emit (fun _ => true)
        (some (ipft_script.mk (runtime_returning globals_emit_dump [.string huge_module] [])))
        none 0
      = some (emit_result.mk 0 (some huge_module) 0
          (some (ipft_script.mk (runtime_returning globals_emit_dump [.string huge_module] [])))) ∧
    huge_module.length / sizeof_bpf_insn = 2 ^ 32 := by
  rw [script_exec_emit_huge, huge_module_count]
  exact ⟨rfl, huge_module_insns⟩

/-- C6, amended: when the script defines `emit` and `emit` returns a string
of `n` bytes, `script_exec_emit` returns; it succeeds exactly when the module
buffer can be allocated, and then hands out a copy of the string and the
count `floor(n / 8)` reduced modulo `2 ^ 32`, which is `floor(n / 8)` itself
whenever `n < 2 ^ 35`: a trailing partial instruction is not counted. -/
theorem script_exec_emit_count (malloc : Nat → Bool) (L : lua_State)
    (modp : Option (List Byte)) (mod_cnt f : Nat) (s : List Byte) (rets : List lua_value)
    (g : lua_globals)
    (hemit : L.globals "emit" = .function f)
    (hrun : L.run f [] L.globals = some (.string s :: rets, g)) :
    ∃ r, script_exec_emit malloc (some { L := L }) modp mod_cnt = some r ∧
      (r.ret = 0 ↔ malloc s.length = true) ∧
      (r.ret = 0 →
        r.modp = some s ∧
        r.mod_cnt = (s.length / sizeof_bpf_insn) % 2 ^ 32 ∧
        (s.length < 2 ^ 35 → r.mod_cnt = s.length / sizeof_bpf_insn)) := by
  rw [script_exec_emit_string malloc L modp mod_cnt f s rets g hemit hrun]
  cases hm : malloc s.length with
  | false => exact ⟨_, rfl, by simp, by simp⟩
  | true =>
    refine ⟨_, rfl, by simp, fun _ => ⟨rfl, rfl, fun hlt => ?_⟩⟩
    apply Nat.mod_eq_of_lt
    simp only [sizeof_bpf_insn]
    omega

/-- Witness of C6: fifteen bytes, one short of two instructions, count as
one instruction. -/
theorem script_exec_emit_count_witness :
    globals_emit_dump "emit" = .function 0 ∧
    (runtime_returning globals_emit_dump [.string (List.replicate 15 7)] []).run 0 []
      globals_emit_dump = some (.string (List.replicate 15 7) :: [], globals_emit_dump) ∧
    (∃ r, script_exec_emit (fun _ => true)
        (some { L := runtime_returning globals_emit_dump [.string (List.replicate 15 7)] [] })
        none 0 = some r ∧
      (r.ret = 0 ↔ (fun _ => true) (List.replicate 15 (7 : Byte)).length = true) ∧
      (r.ret = 0 →
        r.modp = some (List.replicate 15 7) ∧
        r.mod_cnt = ((List.replicate 15 (7 : Byte)).length / sizeof_bpf_insn) % 2 ^ 32 ∧
        ((List.replicate 15 (7 : Byte)).length < 2 ^ 35 →
          r.mod_cnt = (List.replicate 15 (7 : Byte)).length / sizeof_bpf_insn))) ∧
    (List.replicate 15 (7 : Byte)).length / sizeof_bpf_insn = 1 :=
  ⟨rfl, rfl,
   script_exec_emit_count (fun _ => true)
     (runtime_returning globals_emit_dump [.string (List.replicate 15 7)] []) none 0 0
     (List.replicate 15 7) [] globals_emit_dump rfl rfl,
   by decide⟩

/-- C7: the two failure paths of `script_exec_emit` on a runtime whose stack
holds one value.  When `emit` returns `nil`, the call returns `-1` and the
stack holds two values: the value `emit` returned is still on it.  When the
module buffer cannot be allocated, the call returns `-1` and the stack holds
one value again. -/
theorem script_exec_emit_failure_stack :
    lua_gettop (runtime_returning globals_emit_dump [.nil] []) = 1 ∧
    (∃ r L1, script_exec_emit (fun _ => true)
        (some { L := runtime_returning globals_emit_dump [.nil] [] }) none 0 = some r ∧
      r.ret = -1 ∧ r.script = some { L := L1 } ∧ lua_gettop L1 = 2 ∧
      L1.stack = [.nil, .other 7]) ∧
    lua_gettop (runtime_returning globals_emit_dump [.string [1, 2, 3]] []) = 1 ∧
    (∃ r L1, script_exec_emit (fun _ => false)
        (some { L := runtime_returning globals_emit_dump [.string [1, 2, 3]] [] }) none 0
          = some r ∧
      r.ret = -1 ∧ r.script = some { L := L1 } ∧ lua_gettop L1 = 1) :=
  ⟨rfl, ⟨_, _, rfl, rfl, rfl, rfl, rfl⟩, rfl, ⟨_, _, rfl, rfl, rfl, rfl⟩⟩

/-- C8: when the session has a runtime and the global `emit` is not a
function, `script_exec_emit` returns `0` and both outputs hold what they held
before the call; the runtime is as it was. -/
theorem script_exec_emit_absent (malloc : Nat → Bool) (L : lua_State)
    (modp : Option (List Byte)) (mod_cnt : Nat)
    (hno : ∀ f, L.globals "emit" ≠ .function f) :
    script_exec_emit malloc (some { L := L }) modp mod_cnt
      = some { ret := 0, modp := modp, mod_cnt := mod_cnt, script := some { L := L } } := by
  cases hg : L.globals "emit" with
  | function f => exact absurd hg (hno f)
  | nil => simp [script_exec_emit, script_has_emit, script_is_function_eq, hg]
  | boolean b => simp [script_exec_emit, script_has_emit, script_is_function_eq, hg]
  | number n => simp [script_exec_emit, script_has_emit, script_is_function_eq, hg]
  | string b => simp [script_exec_emit, script_has_emit, script_is_function_eq, hg]
  | other n => simp [script_exec_emit, script_has_emit, script_is_function_eq, hg]

/-- Witness of C8: a script that defines `dump` only; the module pointer and
the count the caller had stored come back. -/
theorem script_exec_emit_absent_witness :
    (∀ f, (runtime_returning globals_dump_only [] [.string [104, 105]]).globals "emit"
      ≠ .function f) ∧
    script_exec_emit (fun _ => true)
      (some { L := runtime_returning globals_dump_only [] [.string [104, 105]] })
      (some [1, 2, 3, 4, 5, 6, 7, 8]) 1
      = some { ret := 0, modp := some [1, 2, 3, 4, 5, 6, 7, 8], mod_cnt := 1,
               script := some { L := runtime_returning globals_dump_only [] [.string [104, 105]] } } :=
  ⟨fun f => by simp [runtime_returning, globals_dump_only],
   script_exec_emit_absent (fun _ => true)
     (runtime_returning globals_dump_only [] [.string [104, 105]])
     (some [1, 2, 3, 4, 5, 6, 7, 8]) 1 (fun f => by simp [runtime_returning, globals_dump_only])⟩

theorem lua_tostring_second (g : lua_globals)
    (run : Nat → List lua_value → lua_globals → Option (List lua_value × lua_globals))
    (e : Option ipft_debuginfo) (t m : lua_value) :
    lua_tostring (lua_State.mk [m, t] g run e) (-2)
      = (lua_State.mk [m, t.converted] g run e, t.cstring) := by
  cases t <;> rfl

theorem lua_tostring_top (g : lua_globals)
    (run : Nat → List lua_value → lua_globals → Option (List lua_value × lua_globals))
    (e : Option ipft_debuginfo) (m : lua_value) (rest : List lua_value) :
    lua_tostring (lua_State.mk (m :: rest) g run e) (-1)
      = (lua_State.mk (m.converted :: rest) g run e, m.cstring) := by
  cases m <;>
    simp [lua_tostring, lua_tolstring, lua_index, lua_value.converted, lua_value.cstring]

/-- C11 fails as stated: the backend answers the offset query with `2 ^ 63`
and `ipft.offsetof` returns the number `-9223372036854775808`; the same
happens to `ipft.sizeof`. -/
theorem script_ipft_offsetof_wraps :
    dinfo_top.offsetof (some (c_literal "struct foo")) (some (c_literal "bar")) = some (2 ^ 63) ∧
    script_ipft_offsetof
        (frame_of dinfo_top [.string (c_literal "struct foo"), .string (c_literal "bar")])
      = .returned 1 (lua_pushinteger
          (frame_of dinfo_top [.string (c_literal "struct foo"), .string (c_literal "bar")])
          (-(2 ^ 63))) ∧
    dinfo_top.sizeof (some (c_literal "struct foo")) = some (2 ^ 63) ∧
    script_ipft_sizeof (frame_of dinfo_top [.string (c_literal "struct foo")])
      = .returned 1 (lua_pushinteger (frame_of dinfo_top [.string (c_literal "struct foo")])
          (-(2 ^ 63))) ∧
    lua_integer_text (-(2 ^ 63)) = c_literal "-9223372036854775808" ∧
    lua_integer_text (2 ^ 63) = c_literal "9223372036854775808" ∧
    lua_integer_text (-(2 ^ 63)) ≠ lua_integer_text (2 ^ 63) :=
  ⟨rfl, rfl, rfl, rfl, by decide, by decide, by decide⟩

/-- C11, amended: called with two arguments (one for `ipft.sizeof`) in a
runtime whose context slot holds a handle, each of the three functions hands
the handle the C strings of its arguments (the bytes of a string, the text
of a number, `NULL` for any other value).  When the query fails it raises a
script error and returns nothing.  When the query succeeds it returns one
value: for `ipft.offsetof` and `ipft.sizeof` the answer converted from
`size_t` to the signed 64-bit integer of the runtime, which is the answer
itself whenever that is below `2 ^ 63`; for `ipft.typeof` the C string the
backend stored, which is all of its bytes when none of them is zero. -/
theorem script_ipft_forward (g : lua_globals)
    (run : Nat → List lua_value → lua_globals → Option (List lua_value × lua_globals))
    (dinfo : ipft_debuginfo) (t m : lua_value) :
    script_ipft_offsetof (lua_State.mk [m, t] g run (some dinfo)) =
      (match dinfo.offsetof t.cstring m.cstring with
       | some offset => .returned 1 (lua_State.mk
           [.number (lua_integer_text (lua_Integer_of_size_t offset)), m.converted, t.converted]
           g run (some dinfo))
       | none => .raised (lua_State.mk
           [.string (c_literal "Couldn't get offset"), m.converted, t.converted]
           g run (some dinfo))) ∧
    script_ipft_sizeof (lua_State.mk [t] g run (some dinfo)) =
      (match dinfo.sizeof t.cstring with
       | some size => .returned 1 (lua_State.mk
           [.number (lua_integer_text (lua_Integer_of_size_t size)), t.converted]
           g run (some dinfo))
       | none => .raised (lua_State.mk
           [.string (c_literal "Couldn't get size"), t.converted] g run (some dinfo))) ∧
    script_ipft_typeof (lua_State.mk [m, t] g run (some dinfo)) =
      (match dinfo.typeof t.cstring m.cstring with
       | some name => .returned 1 (lua_State.mk
           [.string (name.takeWhile (fun b => decide (b ≠ 0))), m.converted, t.converted]
           g run (some dinfo))
       | none => .raised (lua_State.mk
           [.string (c_literal "Couldn't get member type"), m.converted, t.converted]
           g run (some dinfo))) ∧
    (∀ n : Nat, n < 2 ^ 63 → lua_Integer_of_size_t n = (n : Int)) ∧
    (∀ name : List Byte, (0 : Byte) ∉ name →
      name.takeWhile (fun b => decide (b ≠ 0)) = name) := by
  refine ⟨?_, ?_, ?_, ?_, ?_⟩
  · simp only [script_ipft_offsetof, lua_gettop, List.length_cons, List.length_nil,
      lua_tostring_second, lua_tostring_top]
    cases dinfo.offsetof t.cstring m.cstring <;> rfl
  · simp only [script_ipft_sizeof, lua_gettop, List.length_cons, List.length_nil,
      lua_tostring_top]
    cases dinfo.sizeof t.cstring <;> rfl
  · simp only [script_ipft_typeof, lua_gettop, List.length_cons, List.length_nil,
      lua_tostring_second, lua_tostring_top]
    cases dinfo.typeof t.cstring m.cstring <;> rfl
  · intro n hn
    have h1 : n % 2 ^ 64 = n := Nat.mod_eq_of_lt (by omega)
    unfold lua_Integer_of_size_t
    rw [h1, if_pos hn]
  · intro name h0
    rw [List.takeWhile_eq_self_iff]
    intro b hb
    have : b ≠ 0 := fun h => h0 (h ▸ hb)
    simpa using this

/-- Witness of C11: `ipft.offsetof("struct foo", "bar")`,
`ipft.sizeof("struct foo")` and `ipft.typeof("struct foo", "bar")` against a
handle that answers `16`, `24` and `int`, and `ipft.sizeof("struct baz")`,
which the handle does not know. -/
theorem script_ipft_forward_witness :
    script_ipft_offsetof
        (frame_of dinfo_foo [.string (c_literal "struct foo"), .string (c_literal "bar")])
      = .returned 1 (lua_State.mk
          [.number (c_literal "16"), .string (c_literal "bar"), .string (c_literal "struct foo")]
          (fun _ => .nil) (fun _ _ _ => none) (some dinfo_foo)) ∧
    script_ipft_sizeof (frame_of dinfo_foo [.string (c_literal "struct foo")])
      = .returned 1 (lua_State.mk [.number (c_literal "24"), .string (c_literal "struct foo")]
          (fun _ => .nil) (fun _ _ _ => none) (some dinfo_foo)) ∧
    script_ipft_typeof
        (frame_of dinfo_foo [.string (c_literal "struct foo"), .string (c_literal "bar")])
      = .returned 1 (lua_State.mk
          [.string (c_literal "int"), .string (c_literal "bar"), .string (c_literal "struct foo")]
          (fun _ => .nil) (fun _ _ _ => none) (some dinfo_foo)) ∧
    script_ipft_sizeof (frame_of dinfo_foo [.string (c_literal "struct baz")])
      = .raised (lua_State.mk
          [.string (c_literal "Couldn't get size"), .string (c_literal "struct baz")]
          (fun _ => .nil) (fun _ _ _ => none) (some dinfo_foo)) :=
  have h := script_ipft_forward (fun _ => .nil) (fun _ _ _ => none) dinfo_foo
    (.string (c_literal "struct foo")) (.string (c_literal "bar"))
  have h2 := script_ipft_forward (fun _ => .nil) (fun _ _ _ => none) dinfo_foo
    (.string (c_literal "struct baz")) .nil
  ⟨h.1, h.2.1, h.2.2.1, h2.2.1⟩

end Ipftrace
